import Mathlib

/-!
Shallow embedding of the breakout-room coordination core of
`src/backend/routes/breakoutRoomRoutes.js`.

Each Express route handler is embedded as a pure function over an explicit
`Store` (the Mongo collections `LiveSanctuarySession` and `BreakoutRoom`).
`redisService.publishEvent` calls are accumulated in an event list;
`new Date()` timestamps are passed in as a `now : Nat` parameter; `nanoid`
results and the `generateRtcToken` outcome are likewise passed as parameters,
so every handler is a deterministic function of its inputs.

HTTP failures `res.error(msg, code)` are embedded as `Except ErrResp`.
-/

set_option maxRecDepth 4000

namespace Veilos

/-- A participant of the main session (`LiveSanctuarySession.participants`).
The source field `alias` is spelled `aliasName` here (`alias` is a Lean
keyword). -/
structure Participant where
  id : String
  aliasName : String
  avatarIndex : Nat
  isHost : Bool
  isModerator : Bool
  deriving DecidableEq, Repr

/-- A participant snapshot stored in a breakout-room roster
(built at lines 144-151 and 402-409 of the source). -/
structure RoomParticipant where
  id : String
  aliasName : String
  avatarIndex : Nat
  joinedAt : Nat
  isMuted : Bool
  connectionStatus : String
  deriving DecidableEq, Repr

/-- `BreakoutRoom.status`: the route file only ever stores `'active'` or
`'closed'`. -/
inductive RoomStatus
  | active
  | closed
  deriving DecidableEq, Repr

/-- A `BreakoutRoom` document. -/
structure BreakoutRoom where
  id : String
  sessionId : String
  name : String
  createdBy : String
  creatorAlias : String
  maxParticipants : Nat
  agoraChannelName : String
  agoraToken : String
  status : RoomStatus
  createdAt : Nat
  expiresAt : Nat
  closedAt : Option Nat
  participants : List RoomParticipant
  autoAssign : Bool
  deriving DecidableEq, Repr

/-- A `LiveSanctuarySession` document (the fields the route file reads). -/
structure Session where
  id : String
  hostId : String
  hostAlias : String
  participants : List Participant
  breakoutRooms : List String
  deriving DecidableEq, Repr

/-- The persistent state the route file reads and writes. -/
structure Store where
  sessions : List Session
  rooms : List BreakoutRoom
  deriving DecidableEq, Repr

/-- An HTTP error response: `res.error(msg, code)`. -/
structure ErrResp where
  msg : String
  code : Nat
  deriving DecidableEq, Repr

/-- One `redisService.publishEvent(topic, eventType, payload)` call;
only topic and event type are modelled. -/
structure Event where
  topic : String
  eventType : String
  deriving DecidableEq, Repr

/-- Outcome of one route handler: the HTTP result, the store after all
`save()` calls, and the published events in order. On every error path of
the source the store is unchanged and no event has been published yet. -/
structure OpResult (α : Type) where
  result : Except ErrResp α
  store : Store
  events : List Event
  deriving Repr

/-- `doc.save()` for a breakout room: replace the first stored room whose
`id` matches (ids are unique in practice; `findOne` also takes the first). -/
def saveRoom : List BreakoutRoom → BreakoutRoom → List BreakoutRoom
  | [], _ => []
  | x :: xs, r => if x.id = r.id then r :: xs else x :: saveRoom xs r

/-- `doc.save()` for a session. -/
def saveSession : List Session → Session → List Session
  | [], _ => []
  | x :: xs, s => if x.id = s.id then s :: xs else x :: saveSession xs s

/-- `POST /:sessionId/breakout-rooms/:roomId/join` (source lines 108-196).
`userId` is `req.user.id`; `now` stands for `new Date()`. -/
def joinRoom (st : Store) (sessionId roomId userId : String) (now : Nat) :
    OpResult Unit :=
  match st.sessions.find? (fun s => s.id = sessionId) with
  | none => ⟨.error ⟨"Session not found", 404⟩, st, []⟩
  | some session =>
    match session.participants.find? (fun p => p.id = userId) with
    | none => ⟨.error ⟨"Must be a participant in the main session", 403⟩, st, []⟩
    | some participant =>
      match st.rooms.find? (fun r => r.id = roomId) with
      | none => ⟨.error ⟨"Breakout room not found", 404⟩, st, []⟩
      | some breakoutRoom =>
        if breakoutRoom.sessionId ≠ sessionId then
          ⟨.error ⟨"Breakout room does not belong to this session", 400⟩, st, []⟩
        else if breakoutRoom.participants.length ≥ breakoutRoom.maxParticipants then
          ⟨.error ⟨"Breakout room is full", 400⟩, st, []⟩
        else if (breakoutRoom.participants.find? (fun p => p.id = userId)).isSome then
          ⟨.error ⟨"Already in breakout room", 400⟩, st, []⟩
        else
          let roomParticipant : RoomParticipant :=
            { id := userId
              aliasName := participant.aliasName
              avatarIndex := participant.avatarIndex
              joinedAt := now
              isMuted := true
              connectionStatus := "connected" }
          let room' := { breakoutRoom with
            participants := breakoutRoom.participants ++ [roomParticipant] }
          ⟨.ok (), { st with rooms := saveRoom st.rooms room' },
            [⟨("breakout:" ++ roomId), "participant_joined"⟩,
             ⟨("session:" ++ sessionId), "breakout_room_joined"⟩]⟩

/-- `POST /:sessionId/breakout-rooms/:roomId/leave` (source lines 199-251).
The handler never loads the session document: it only reads and writes the
`BreakoutRoom` collection. -/
def leaveRoom (st : Store) (sessionId roomId userId : String) :
    OpResult Unit :=
  match st.rooms.find? (fun r => r.id = roomId) with
  | none => ⟨.error ⟨"Breakout room not found", 404⟩, st, []⟩
  | some breakoutRoom =>
    if (breakoutRoom.participants.find? (fun p => p.id = userId)).isNone then
      ⟨.error ⟨"Not in breakout room", 400⟩, st, []⟩
    else
      let room' := { breakoutRoom with
        participants := breakoutRoom.participants.eraseP (fun p => p.id = userId) }
      ⟨.ok (), { st with rooms := saveRoom st.rooms room' },
        [⟨("breakout:" ++ roomId), "participant_left"⟩,
         ⟨("session:" ++ sessionId), "breakout_room_left"⟩]⟩

/-- JS `String.prototype.trim` on the underlying character list (Lean's
built-in `String.trim` is not kernel-reducible, which would block witness
evaluation). -/
def trimmed (s : String) : String :=
  ⟨((s.data.dropWhile Char.isWhitespace).reverse.dropWhile Char.isWhitespace).reverse⟩

/-- `POST /:sessionId/breakout-rooms` (source lines 11-105).
`maxParticipantsBody` is the request-body field: `none` models an absent
field, for which the destructuring default `= 10` applies; a present `0` is
used as-is — the handler validates the name but never the capacity.
`issuer` is the outcome of the `generateRtcToken` call (`.error` when it
throws); `nano6`/`nano16` are the two `nanoid` draws. -/
def createRoom (st : Store) (sessionId userId name : String)
    (maxParticipantsBody : Option Nat) (autoAssignFlag : Bool)
    (issuer : Except String String) (nano6 nano16 : String) (now : Nat) :
    OpResult BreakoutRoom :=
  let maxParticipants := maxParticipantsBody.getD 10
  match st.sessions.find? (fun s => s.id = sessionId) with
  | none => ⟨.error ⟨"Session not found", 404⟩, st, []⟩
  | some session =>
    match session.participants.find? (fun p => p.id = userId) with
    | none =>
      ⟨.error ⟨"Only hosts and moderators can create breakout rooms", 403⟩, st, []⟩
    | some participant =>
      if ¬participant.isHost ∧ ¬participant.isModerator then
        ⟨.error ⟨"Only hosts and moderators can create breakout rooms", 403⟩, st, []⟩
      else if (trimmed name).length < 2 then
        ⟨.error ⟨"Room name must be at least 2 characters", 400⟩, st, []⟩
      else
        let roomId := "breakout_" ++ sessionId ++ "_" ++ nano6
        let channelName := "breakout_" ++ roomId
        let agoraToken :=
          match issuer with
          | .ok tok => tok
          | .error _ => "temp_breakout_token_" ++ nano16
        let breakoutRoom : BreakoutRoom :=
          { id := roomId
            sessionId := session.id
            name := trimmed name
            createdBy := userId
            creatorAlias := participant.aliasName
            maxParticipants := maxParticipants
            agoraChannelName := channelName
            agoraToken := agoraToken
            status := .active
            createdAt := now
            expiresAt := now + 3600 * 1000
            closedAt := none
            participants := []
            autoAssign := autoAssignFlag }
        let session' := { session with
          breakoutRooms := session.breakoutRooms ++ [roomId] }
        ⟨.ok breakoutRoom,
          { st with
            rooms := st.rooms ++ [breakoutRoom]
            sessions := saveSession st.sessions session' },
          [⟨("session:" ++ sessionId), "breakout_room_created"⟩]⟩

/-- `DELETE /:sessionId/breakout-rooms/:roomId` (source lines 304-359): sets
`status = 'closed'` and `closedAt`, then publishes the two closure events.
The handler never inspects the room's current status. -/
def closeRoom (st : Store) (sessionId roomId userId : String) (now : Nat) :
    OpResult Unit :=
  match st.sessions.find? (fun s => s.id = sessionId) with
  | none => ⟨.error ⟨"Session not found", 404⟩, st, []⟩
  | some session =>
    if session.hostId ≠ userId then
      ⟨.error ⟨"Only the host can delete breakout rooms", 403⟩, st, []⟩
    else
      match st.rooms.find? (fun r => r.id = roomId) with
      | none => ⟨.error ⟨"Breakout room not found", 404⟩, st, []⟩
      | some breakoutRoom =>
        let room' := { breakoutRoom with
          status := .closed
          closedAt := some now }
        ⟨.ok (), { st with rooms := saveRoom st.rooms room' },
          [⟨("breakout:" ++ roomId), "room_closed"⟩,
           ⟨("session:" ++ sessionId), "breakout_room_closed"⟩]⟩

/-- The shape of one element of the `GET` listing's `rooms` array. -/
structure RoomSummary where
  id : String
  name : String
  createdBy : String
  creatorAlias : String
  maxParticipants : Nat
  currentParticipants : Nat
  participantIds : List String
  createdAt : Nat
  canJoin : Bool
  deriving DecidableEq, Repr

/-- Stable insertion into a list sorted by ascending `createdAt`;
models Mongo's `.sort({ createdAt: 1 })`. -/
def insertByCreatedAt (r : BreakoutRoom) : List BreakoutRoom → List BreakoutRoom
  | [] => [r]
  | x :: xs =>
    if x.createdAt ≤ r.createdAt then x :: insertByCreatedAt r xs
    else r :: x :: xs

/-- Sort rooms by ascending `createdAt`. -/
def sortByCreatedAt : List BreakoutRoom → List BreakoutRoom
  | [] => []
  | x :: xs => insertByCreatedAt x (sortByCreatedAt xs)

/-- `GET /:sessionId/breakout-rooms` (source lines 254-301): only rooms with
`status: 'active'` are fetched, sorted by `createdAt`, and mapped to
summaries with `canJoin = |roster| < max && actor not in roster`. -/
def listBreakoutRooms (st : Store) (sessionId userId : String) :
    Except ErrResp (List RoomSummary) :=
  match st.sessions.find? (fun s => s.id = sessionId) with
  | none => .error ⟨"Session not found", 404⟩
  | some session =>
    match session.participants.find? (fun p => p.id = userId) with
    | none => .error ⟨"Not a participant in this session", 403⟩
    | some _ =>
      let breakoutRooms := sortByCreatedAt (st.rooms.filter
        (fun r => r.sessionId = session.id ∧ r.status = .active))
      .ok (breakoutRooms.map (fun room =>
        { id := room.id
          name := room.name
          createdBy := room.createdBy
          creatorAlias := room.creatorAlias
          maxParticipants := room.maxParticipants
          currentParticipants := room.participants.length
          participantIds := room.participants.map (fun p => p.id)
          createdAt := room.createdAt
          canJoin := decide (room.participants.length < room.maxParticipants) &&
            !(room.participants.find? (fun p => p.id = userId)).isSome }))

/-- One iteration of the auto-assign `for` loop body (source lines 398-423):
`idx` is `roomIndex % breakoutRooms.length`; the participant is committed
only when the target room is below capacity, otherwise the iteration leaves
the rooms untouched (skip, no reassignment). -/
def autoAssignStep (roomsArr : List BreakoutRoom) (p : Participant)
    (idx : Nat) (now : Nat) : List BreakoutRoom × List Event :=
  match roomsArr.get? idx with
  | none => (roomsArr, [])
  | some targetRoom =>
    if targetRoom.participants.length < targetRoom.maxParticipants then
      let roomParticipant : RoomParticipant :=
        { id := p.id
          aliasName := p.aliasName
          avatarIndex := p.avatarIndex
          joinedAt := now
          isMuted := true
          connectionStatus := "connected" }
      (roomsArr.set idx
        { targetRoom with
          participants := targetRoom.participants ++ [roomParticipant] },
       [⟨("user:" ++ p.id), "auto_assigned_to_breakout"⟩])
    else (roomsArr, [])

/-- The auto-assign `for` loop: `i` is `roomIndex`, incremented on every
participant whether or not the assignment was committed. The rooms array is
shared mutable state across iterations, so later iterations see earlier
appends. -/
def autoAssignLoop (roomsArr : List BreakoutRoom) (ps : List Participant)
    (i now : Nat) : List BreakoutRoom × List Event :=
  match ps with
  | [] => (roomsArr, [])
  | p :: rest =>
    let step := autoAssignStep roomsArr p (i % roomsArr.length) now
    let restResult := autoAssignLoop step.1 rest (i + 1) now
    (restResult.1, step.2 ++ restResult.2)

/-- `POST /:sessionId/breakout-rooms/auto-assign` (source lines 362-440).
Each committed assignment is `targetRoom.save()`d; folding every final room
through `saveRoom` gives the same store (rooms never touched save back
unchanged). Returns `(assignedCount, totalRooms)` as reported by the
handler — note `assignedCount` is the number of *unassigned* participants,
counted whether or not their assignment was committed. -/
def autoAssignRooms (st : Store) (sessionId userId : String) (now : Nat) :
    OpResult (Nat × Nat) :=
  match st.sessions.find? (fun s => s.id = sessionId) with
  | none => ⟨.error ⟨"Session not found", 404⟩, st, []⟩
  | some session =>
    if session.hostId ≠ userId then
      ⟨.error ⟨"Only the host can auto-assign participants", 403⟩, st, []⟩
    else
      let breakoutRooms := st.rooms.filter
        (fun r => r.sessionId = session.id ∧ r.status = .active)
      if breakoutRooms.length = 0 then
        ⟨.error ⟨"No active breakout rooms found", 400⟩, st, []⟩
      else
        let unassignedParticipants := session.participants.filter (fun p =>
          ¬breakoutRooms.any (fun room =>
            room.participants.any (fun rp => rp.id = p.id)))
        if unassignedParticipants.length = 0 then
          ⟨.ok (0, breakoutRooms.length), st, []⟩
        else
          let loopResult := autoAssignLoop breakoutRooms unassignedParticipants 0 now
          ⟨.ok (unassignedParticipants.length, breakoutRooms.length),
            { st with rooms := loopResult.1.foldl saveRoom st.rooms },
            loopResult.2⟩

/-! ### Helper lemmas about the store primitives -/

/-- Anything in `saveRoom l r` is either the saved document or was already
in the collection. -/
theorem mem_saveRoom {l : List BreakoutRoom} {r x : BreakoutRoom}
    (h : x ∈ saveRoom l r) : x = r ∨ x ∈ l := by
  induction l with
  | nil => simp [saveRoom] at h
  | cons a as ih =>
    simp only [saveRoom] at h
    split at h
    · rcases List.mem_cons.mp h with h1 | h1
      · exact .inl h1
      · exact .inr (List.mem_cons_of_mem _ h1)
    · rcases List.mem_cons.mp h with h1 | h1
      · exact .inr (h1 ▸ List.mem_cons_self a as)
      · rcases ih h1 with h2 | h2
        · exact .inl h2
        · exact .inr (List.mem_cons_of_mem _ h2)

/-- After saving a document with the looked-up id, `findOne` returns the
saved version. -/
theorem find?_saveRoom {l : List BreakoutRoom} {rid : String} {r0 r1 : BreakoutRoom}
    (h : l.find? (fun x => x.id = rid) = some r0) (hid : r1.id = rid) :
    (saveRoom l r1).find? (fun x => x.id = rid) = some r1 := by
  induction l with
  | nil => simp at h
  | cons a as ih =>
    by_cases ha : a.id = rid
    · have : a.id = r1.id := by rw [ha, hid]
      simp [saveRoom, this, List.find?_cons, hid]
    · have hne : ¬a.id = r1.id := by rw [hid]; exact ha
      rw [List.find?_cons_of_neg _ (by simpa using ha)] at h
      simp only [saveRoom, if_neg hne]
      rw [List.find?_cons_of_neg _ (by simpa using ha)]
      exact ih h

/-- Saving some version of a room and then saving back the originally
looked-up document restores the collection exactly. -/
theorem saveRoom_saveRoom_cancel (r1 : BreakoutRoom) {l : List BreakoutRoom}
    {rid : String} {r : BreakoutRoom}
    (h : l.find? (fun x => x.id = rid) = some r) (hid : r1.id = rid) :
    saveRoom (saveRoom l r1) r = l := by
  induction l with
  | nil => simp at h
  | cons a as ih =>
    have hrid : r.id = rid := by simpa using List.find?_some h
    by_cases ha : a.id = rid
    · rw [List.find?_cons_of_pos _ (by simpa using ha)] at h
      have heq : a = r := by simpa using h
      have h1 : a.id = r1.id := by rw [ha, hid]
      have h2 : r1.id = r.id := by rw [hid, hrid]
      rw [show saveRoom (a :: as) r1 = r1 :: as by simp [saveRoom, h1]]
      rw [show saveRoom (r1 :: as) r = r :: as by simp [saveRoom, h2]]
      rw [heq]
    · have hne1 : ¬a.id = r1.id := by rw [hid]; exact ha
      have hne2 : ¬a.id = r.id := by rw [hrid]; exact ha
      rw [List.find?_cons_of_neg _ (by simpa using ha)] at h
      simp only [saveRoom, if_neg hne1, if_neg hne2]
      rw [ih h]

/-- Success characterization of `joinRoom`: when the session is found, the
actor is in its roster, the room is found, belongs to the session, is below
capacity and does not already contain the actor, the handler appends a
muted-connected snapshot and publishes the two join events. No status check
appears anywhere in this path. -/
theorem joinRoom_ok {st : Store} {sessionId roomId userId : String} (now : Nat)
    {session : Session} {participant : Participant} {room : BreakoutRoom}
    (hs : st.sessions.find? (fun s => s.id = sessionId) = some session)
    (hp : session.participants.find? (fun p => p.id = userId) = some participant)
    (hr : st.rooms.find? (fun r => r.id = roomId) = some room)
    (hsid : room.sessionId = sessionId)
    (hcap : room.participants.length < room.maxParticipants)
    (hmem : ∀ p ∈ room.participants, p.id ≠ userId) :
    joinRoom st sessionId roomId userId now =
      ⟨.ok (), { st with rooms := saveRoom st.rooms { room with participants := room.participants ++ [⟨userId, participant.aliasName, participant.avatarIndex, now, true, "connected"⟩] } },
        [⟨"breakout:" ++ roomId, "participant_joined"⟩,
         ⟨"session:" ++ sessionId, "breakout_room_joined"⟩]⟩ := by
  have hmem' : room.participants.find? (fun p => p.id = userId) = none :=
    List.find?_eq_none.mpr (by intro x hx; simpa using hmem x hx)
  simp only [joinRoom, hs, hp, hr, hmem']
  rw [if_neg (by simp [hsid]), if_neg (by omega)]
  simp

/-- Success characterization of `leaveRoom`: when the room is found and the
actor is in its roster, the first matching snapshot is removed and the two
leave events are published. The session collection is never touched. -/
theorem leaveRoom_ok {st : Store} (sessionId userId : String) {roomId : String}
    {room : BreakoutRoom}
    (hr : st.rooms.find? (fun r => r.id = roomId) = some room)
    (hmem : (room.participants.find? (fun p => p.id = userId)).isSome = true) :
    leaveRoom st sessionId roomId userId =
      ⟨.ok (), { st with rooms := saveRoom st.rooms { room with participants := room.participants.eraseP (fun p => p.id = userId) } },
        [⟨"breakout:" ++ roomId, "participant_left"⟩,
         ⟨"session:" ++ sessionId, "breakout_room_left"⟩]⟩ := by
  obtain ⟨a, ha⟩ := Option.isSome_iff_exists.mp hmem
  simp [leaveRoom, hr, ha]

/-- Success characterization of `closeRoom`: when the session is found, the
actor is its host and the room is found, the handler — with no check of the
room's current status — stamps `closed`/`closedAt` and publishes both
closure events. -/
theorem closeRoom_ok {st : Store} {sessionId roomId userId : String} {now : Nat}
    {session : Session} {room : BreakoutRoom}
    (hs : st.sessions.find? (fun s => s.id = sessionId) = some session)
    (hhost : session.hostId = userId)
    (hr : st.rooms.find? (fun r => r.id = roomId) = some room) :
    closeRoom st sessionId roomId userId now =
      ⟨.ok (), { st with rooms := saveRoom st.rooms { room with status := .closed, closedAt := some now } },
        [⟨"breakout:" ++ roomId, "room_closed"⟩,
         ⟨"session:" ++ sessionId, "breakout_room_closed"⟩]⟩ := by
  simp only [closeRoom, hs]
  rw [if_neg (by simp [hhost])]
  simp only [hr]

/-- Failure characterization of `createRoom` on a short name: with the
session found and a privileged actor, a name whose trimmed length is < 2 is
rejected with HTTP 400 before any state is touched. -/
theorem createRoom_badName {st : Store} {sessionId userId name : String}
    {maxParticipantsBody : Option Nat} {autoAssignFlag : Bool}
    {issuer : Except String String} {nano6 nano16 : String} {now : Nat}
    {session : Session} {participant : Participant}
    (hs : st.sessions.find? (fun s => s.id = sessionId) = some session)
    (hp : session.participants.find? (fun p => p.id = userId) = some participant)
    (hpriv : participant.isHost = true ∨ participant.isModerator = true)
    (hname : (trimmed name).length < 2) :
    createRoom st sessionId userId name maxParticipantsBody autoAssignFlag
        issuer nano6 nano16 now =
      ⟨.error ⟨"Room name must be at least 2 characters", 400⟩, st, []⟩ := by
  simp only [createRoom, hs, hp]
  rw [if_neg (by rcases hpriv with h | h <;> simp [h]), if_pos hname]

/-- Success characterization of `createRoom`: with the session found, a
privileged actor and a valid name, a room is appended to the registry whose
capacity is the request body's `maxParticipants` (defaulted to 10 only when
absent — never validated), whose roster is empty, and whose token is the
issuer's token or, when the issuer throws, the local
`temp_breakout_token_`-prefixed placeholder. -/
theorem createRoom_ok {st : Store} {sessionId userId name : String}
    (maxParticipantsBody : Option Nat) (autoAssignFlag : Bool)
    (issuer : Except String String) (nano6 nano16 : String) (now : Nat)
    {session : Session} {participant : Participant}
    (hs : st.sessions.find? (fun s => s.id = sessionId) = some session)
    (hp : session.participants.find? (fun p => p.id = userId) = some participant)
    (hpriv : participant.isHost = true ∨ participant.isModerator = true)
    (hname : 2 ≤ (trimmed name).length) :
    ∃ room,
      (createRoom st sessionId userId name maxParticipantsBody autoAssignFlag
        issuer nano6 nano16 now).result = .ok room ∧
      room.maxParticipants = maxParticipantsBody.getD 10 ∧
      room.participants = [] ∧
      room.status = .active ∧
      room.agoraToken = (match issuer with
        | .ok tok => tok
        | .error _ => "temp_breakout_token_" ++ nano16) ∧
      (createRoom st sessionId userId name maxParticipantsBody autoAssignFlag
        issuer nano6 nano16 now).store.rooms = st.rooms ++ [room] := by
  simp only [createRoom, hs, hp]
  rw [if_neg (by rcases hpriv with h | h <;> simp [h]), if_neg (by omega)]
  exact ⟨_, rfl, rfl, rfl, rfl, rfl, rfl⟩

/-- Failure characterization of `joinRoom` on a full room: once the session,
actor and room checks pass, a roster already at (or above) capacity is
rejected with the `Breakout room is full` 400 response and nothing is
appended or published. -/
theorem joinRoom_full {st : Store} {sessionId roomId userId : String} {now : Nat}
    {session : Session} {participant : Participant} {room : BreakoutRoom}
    (hs : st.sessions.find? (fun s => s.id = sessionId) = some session)
    (hp : session.participants.find? (fun p => p.id = userId) = some participant)
    (hr : st.rooms.find? (fun r => r.id = roomId) = some room)
    (hsid : room.sessionId = sessionId)
    (hfull : room.participants.length ≥ room.maxParticipants) :
    joinRoom st sessionId roomId userId now =
      ⟨.error ⟨"Breakout room is full", 400⟩, st, []⟩ := by
  simp only [joinRoom, hs, hp, hr]
  rw [if_neg (by simp [hsid]), if_pos hfull]

/-- A full target room makes one auto-assign iteration a strict no-op: the
rooms array is unchanged and no notification is published (the participant
is skipped, not spilled to another room). -/
theorem autoAssignStep_full {roomsArr : List BreakoutRoom} {p : Participant}
    {idx now : Nat} {target : BreakoutRoom}
    (hget : roomsArr.get? idx = some target)
    (hfull : target.maxParticipants ≤ target.participants.length) :
    autoAssignStep roomsArr p idx now = (roomsArr, []) := by
  simp only [autoAssignStep, hget]
  rw [if_neg (by omega)]

/-- A below-capacity target room makes one auto-assign iteration commit: the
snapshot (muted, connected, stamped `now`) is appended to that room and the
user-scoped notification is published. -/
theorem autoAssignStep_commit {roomsArr : List BreakoutRoom} {p : Participant}
    {idx now : Nat} {target : BreakoutRoom}
    (hget : roomsArr.get? idx = some target)
    (hcap : target.participants.length < target.maxParticipants) :
    autoAssignStep roomsArr p idx now =
      (roomsArr.set idx { target with participants := target.participants ++ [⟨p.id, p.aliasName, p.avatarIndex, now, true, "connected"⟩] },
       [⟨"user:" ++ p.id, "auto_assigned_to_breakout"⟩]) := by
  simp only [autoAssignStep, hget]
  rw [if_pos hcap]

/-! ### Operation sequences

A client-visible command of the route file, with every external input
(identities, body fields, issuer outcome, nanoid draws, clock) explicit, so
that a sequence of commands is a deterministic state trace. -/

/-- One invocation of a route handler. -/
inductive Op
  | create (sessionId userId name : String) (maxParticipantsBody : Option Nat)
      (autoAssignFlag : Bool) (issuer : Except String String)
      (nano6 nano16 : String) (now : Nat)
  | join (sessionId roomId userId : String) (now : Nat)
  | leave (sessionId roomId userId : String)
  | close (sessionId roomId userId : String) (now : Nat)
  | assign (sessionId userId : String) (now : Nat)

/-- The store after one handler invocation (the handler's HTTP result and
events are dropped; error paths leave the store unchanged by construction). -/
def applyOp (st : Store) : Op → Store
  | .create sessionId userId name maxB auto issuer nano6 nano16 now =>
    (createRoom st sessionId userId name maxB auto issuer nano6 nano16 now).store
  | .join sessionId roomId userId now => (joinRoom st sessionId roomId userId now).store
  | .leave sessionId roomId userId => (leaveRoom st sessionId roomId userId).store
  | .close sessionId roomId userId now => (closeRoom st sessionId roomId userId now).store
  | .assign sessionId userId now => (autoAssignRooms st sessionId userId now).store

/-- The store after a sequence of handler invocations. -/
def applyOps (st : Store) (ops : List Op) : Store := ops.foldl applyOp st

/-- A per-room predicate holding of every room in the registry. -/
def AllRooms (P : BreakoutRoom → Prop) (st : Store) : Prop := ∀ r ∈ st.rooms, P r

/-- `|participants| ≤ maxParticipants` for every room in the registry. -/
def WithinCapacity (st : Store) : Prop :=
  AllRooms (fun r => r.participants.length ≤ r.maxParticipants) st

/-- Every roster snapshot in every room is muted and connected. -/
def MutedConnected (st : Store) : Prop :=
  AllRooms (fun r => ∀ p ∈ r.participants,
    p.isMuted = true ∧ p.connectionStatus = "connected") st

/-- Folding room saves preserves a per-room predicate that holds of the
accumulator and of every saved document. -/
theorem foldl_saveRoom_pred {P : BreakoutRoom → Prop} :
    ∀ (l acc : List BreakoutRoom), (∀ r ∈ acc, P r) → (∀ r ∈ l, P r) →
      ∀ r ∈ l.foldl saveRoom acc, P r := by
  intro l
  induction l with
  | nil => intro acc hacc _ r hr; exact hacc r hr
  | cons a as ih =>
    intro acc hacc hl r hr
    simp only [List.foldl_cons] at hr
    refine ih (saveRoom acc a) ?_ ?_ r hr
    · intro x hx
      rcases mem_saveRoom hx with h1 | hm
      · rw [h1]; exact hl a (List.mem_cons_self a as)
      · exact hacc x hm
    · intro x hx
      exact hl x (List.mem_cons_of_mem _ hx)

/-- Stability of a per-room predicate under appending one muted-connected
snapshot to a below-capacity roster. -/
def JoinStable (P : BreakoutRoom → Prop) : Prop :=
  ∀ (room : BreakoutRoom) (uid al : String) (av now : Nat),
  P room → room.participants.length < room.maxParticipants →
  P { room with participants := room.participants ++ [⟨uid, al, av, now, true, "connected"⟩] }

/-- Stability under removing the actor's snapshot. -/
def LeaveStable (P : BreakoutRoom → Prop) : Prop :=
  ∀ (room : BreakoutRoom) (uid : String),
  P room → P { room with participants := room.participants.eraseP (fun p => p.id = uid) }

/-- Stability under stamping a room closed. -/
def CloseStable (P : BreakoutRoom → Prop) : Prop :=
  ∀ (room : BreakoutRoom) (now : Nat),
  P room → P { room with status := RoomStatus.closed, closedAt := some now }

/-- Holding of every empty-roster room. -/
def NewStable (P : BreakoutRoom → Prop) : Prop :=
  ∀ r : BreakoutRoom, r.participants = [] → P r

/-- One auto-assign iteration preserves a per-room predicate stable under
appending a muted-connected snapshot to a below-capacity room. -/
theorem autoAssignStep_pred {P : BreakoutRoom → Prop} (hjoinP : JoinStable P)
    (roomsArr : List BreakoutRoom) (p : Participant)
    (idx now : Nat) (h : ∀ r ∈ roomsArr, P r) :
    ∀ r ∈ (autoAssignStep roomsArr p idx now).1, P r := by
  unfold autoAssignStep
  split
  · exact h
  · split
    · intro r hr
      rcases List.mem_or_eq_of_mem_set hr with hm | rfl
      · exact h r hm
      · next target hget hcap => exact hjoinP target p.id p.aliasName p.avatarIndex now (h target (List.get?_mem hget)) hcap
    · exact h

/-- The auto-assign loop preserves the same per-room predicate. -/
theorem autoAssignLoop_pred {P : BreakoutRoom → Prop} (hjoinP : JoinStable P)
    (ps : List Participant) :
    ∀ (roomsArr : List BreakoutRoom) (i now : Nat), (∀ r ∈ roomsArr, P r) →
      ∀ r ∈ (autoAssignLoop roomsArr ps i now).1, P r := by
  induction ps with
  | nil => intro roomsArr i now h; simpa [autoAssignLoop] using h
  | cons p rest ih =>
    intro roomsArr i now h
    simp only [autoAssignLoop]
    exact ih _ _ _ (autoAssignStep_pred hjoinP roomsArr p (i % roomsArr.length) now h)

/-- Every handler preserves a per-room predicate stable under the three
roster/status mutations of the route file and holding of fresh empty rooms. -/
theorem applyOp_allRooms {P : BreakoutRoom → Prop} (hjoinP : JoinStable P)
    (hleaveP : LeaveStable P) (hcloseP : CloseStable P) (hnewP : NewStable P)
    (st : Store) (op : Op)
    (h : AllRooms P st) : AllRooms P (applyOp st op) := by
  cases op with
  | create sessionId userId name maxB auto issuer nano6 nano16 now =>
    simp only [applyOp, createRoom]
    split
    · exact h
    · split
      · exact h
      · split
        · exact h
        · split
          · exact h
          · intro r hr
            rcases List.mem_append.mp hr with hm | hm
            · exact h r hm
            · simp only [List.mem_singleton] at hm
              exact hnewP r (by rw [hm])
  | join sessionId roomId userId now =>
    simp only [applyOp, joinRoom]
    split
    · exact h
    · split
      · exact h
      · split
        · exact h
        · split
          · exact h
          · split
            · exact h
            · split
              · exact h
              · intro r hr
                rcases mem_saveRoom hr with rfl | hm
                · next breakoutRoom _ _ hfull _ =>
                    exact hjoinP breakoutRoom userId _ _ now
                      (h breakoutRoom (List.mem_of_find?_eq_some (by assumption)))
                      (by omega)
                · exact h r hm
  | leave sessionId roomId userId =>
    simp only [applyOp, leaveRoom]
    split
    · exact h
    · split
      · exact h
      · intro r hr
        rcases mem_saveRoom hr with rfl | hm
        · next breakoutRoom hfind _ =>
            exact hleaveP breakoutRoom userId (h breakoutRoom (List.mem_of_find?_eq_some hfind))
        · exact h r hm
  | close sessionId roomId userId now =>
    simp only [applyOp, closeRoom]
    split
    · exact h
    · split
      · exact h
      · split
        · exact h
        · intro r hr
          rcases mem_saveRoom hr with rfl | hm
          · next breakoutRoom hfind =>
              exact hcloseP breakoutRoom now (h breakoutRoom (List.mem_of_find?_eq_some hfind))
          · exact h r hm
  | assign sessionId userId now =>
    simp only [applyOp, autoAssignRooms]
    split
    · exact h
    · split
      · exact h
      · split
        · exact h
        · split
          · exact h
          · refine foldl_saveRoom_pred _ _ h ?_
            refine autoAssignLoop_pred hjoinP _ _ _ _ ?_
            intro r hr
            exact h r (List.mem_of_mem_filter hr)

/-- Any sequence of handler invocations preserves such a per-room predicate. -/
theorem applyOps_allRooms {P : BreakoutRoom → Prop} (hjoinP : JoinStable P)
    (hleaveP : LeaveStable P) (hcloseP : CloseStable P) (hnewP : NewStable P)
    (ops : List Op) :
    ∀ st : Store, AllRooms P st → AllRooms P (applyOps st ops) := by
  induction ops with
  | nil => intro st h; exact h
  | cons op rest ih =>
    intro st h
    exact ih _ (applyOp_allRooms hjoinP hleaveP hcloseP hnewP st op h)

/-! ### Concrete fixtures for witnesses and counterexamples -/

/-- Host of the fixture session. -/
def part1 : Participant := ⟨"p1", "Ap1", 0, true, false⟩

/-- An ordinary fixture participant. -/
def part2 : Participant := ⟨"p2", "Ap2", 1, false, false⟩

/-- An ordinary fixture participant. -/
def part3 : Participant := ⟨"p3", "Ap3", 2, false, false⟩

/-- An ordinary fixture participant. -/
def part4 : Participant := ⟨"p4", "Ap4", 3, false, false⟩

/-- An ordinary fixture participant. -/
def part5 : Participant := ⟨"p5", "Ap5", 4, false, false⟩

/-- A five-member fixture session hosted by `p1`. -/
def sessionFive : Session := ⟨"s1", "p1", "Ap1", [part1, part2, part3, part4, part5], []⟩

/-- A three-member fixture session hosted by `p1`. -/
def sessionThree : Session := ⟨"s1", "p1", "Ap1", [part1, part2, part3], []⟩

/-- An empty fixture room of session `s1`. -/
def mkFixtureRoom (rid : String) (maxP : Nat) (status : RoomStatus)
    (created : Nat) : BreakoutRoom :=
  ⟨rid, "s1", "Room " ++ rid, "p1", "Ap1", maxP, "breakout_" ++ rid, "tok",
   status, created, created + 3600000, none, [], false⟩

/-- Store with one already-closed room (closed at time 5, roster empty). -/
def stClosed : Store :=
  ⟨[sessionFive], [{ mkFixtureRoom "r1" 2 RoomStatus.closed 1 with closedAt := some 5 }]⟩

/-- Store with one empty active two-seat room. -/
def stActive : Store := ⟨[sessionFive], [mkFixtureRoom "r1" 2 RoomStatus.active 1]⟩

/-- Store with two empty active two-seat rooms (the spec's auto-assign
scenario). -/
def stRoundRobin : Store :=
  ⟨[sessionFive],
   [mkFixtureRoom "r1" 2 RoomStatus.active 1, mkFixtureRoom "r2" 2 RoomStatus.active 2]⟩

/-- Store with a one-seat room and a two-seat room and three participants
(exhibits skip-without-reassignment). -/
def stSkip : Store :=
  ⟨[sessionThree],
   [mkFixtureRoom "r1" 1 RoomStatus.active 1, mkFixtureRoom "r2" 2 RoomStatus.active 2]⟩

/-- A one-seat room already at capacity. -/
def fullRoom : BreakoutRoom :=
  { mkFixtureRoom "r9" 1 RoomStatus.active 1 with
    participants := [⟨"p9", "Ap9", 0, 5, true, "connected"⟩] }

/-- Store holding the full one-seat room. -/
def stFull : Store := ⟨[sessionFive], [fullRoom]⟩

/-! ### Claims -/

/-- C9: `leaveRoom`, on every path — room not found, actor not a member, or
successful removal — returns a store whose session collection (and hence the
main session's participant roster) is exactly the input's: the handler never
reads or writes `LiveSanctuarySession`. -/
theorem C9_leave_preserves_main_session (st : Store)
    (sessionId roomId userId : String) :
    (leaveRoom st sessionId roomId userId).store.sessions = st.sessions := by
  unfold leaveRoom
  split
  · rfl
  · split
    · rfl
    · rfl

/-- C1 counterexample: in `stClosed` the only room has `status = closed` and
an empty roster, yet `joinRoom` returns success and the roster afterwards
contains the joining participant — the claimed `InvalidState` rejection for
closed rooms does not exist in the handler. -/
theorem C1_counterexample_closed_room_join_succeeds :
    stClosed.rooms.map (fun r => r.status) = [RoomStatus.closed] ∧
    stClosed.rooms.map (fun r => r.participants.map (fun p => p.id)) = [[]] ∧
    (joinRoom stClosed "s1" "r1" "p2" 7).result = .ok () ∧
    (joinRoom stClosed "s1" "r1" "p2" 7).store.rooms.map
      (fun r => r.participants.map (fun p => p.id)) = [["p2"]] := by
  exact ⟨rfl, rfl, rfl, rfl⟩

/-- C1 (amended): `joinRoom` performs no status check at all. On a room
whose status is `closed`, a join by a session participant who is not yet a
member still succeeds whenever the room belongs to the session and is below
capacity, and it appends the participant snapshot to the closed room's
roster. -/
theorem C1_amended_join_ignores_closed_status
    (st : Store) (sessionId roomId userId : String) (now : Nat)
    (session : Session) (participant : Participant) (room : BreakoutRoom)
    (hs : st.sessions.find? (fun s => s.id = sessionId) = some session)
    (hp : session.participants.find? (fun p => p.id = userId) = some participant)
    (hr : st.rooms.find? (fun r => r.id = roomId) = some room)
    (hsid : room.sessionId = sessionId)
    (hcap : room.participants.length < room.maxParticipants)
    (hmem : ∀ p ∈ room.participants, p.id ≠ userId)
    (hclosed : room.status = RoomStatus.closed) :
    room.status = RoomStatus.closed ∧
    (joinRoom st sessionId roomId userId now).result = .ok () ∧
    (joinRoom st sessionId roomId userId now).store.rooms =
      saveRoom st.rooms { room with participants := room.participants ++ [⟨userId, participant.aliasName, participant.avatarIndex, now, true, "connected"⟩] } := by
  rw [joinRoom_ok now hs hp hr hsid hcap hmem]
  exact ⟨hclosed, rfl, rfl⟩

/-- C1 witness: the amended statement instantiated on `stClosed`. -/
theorem C1_amended_witness :
    (joinRoom stClosed "s1" "r1" "p2" 7).result = .ok () ∧
    (joinRoom stClosed "s1" "r1" "p2" 7).store.rooms =
      saveRoom stClosed.rooms { { mkFixtureRoom "r1" 2 RoomStatus.closed 1 with closedAt := some 5 } with participants := [⟨"p2", "Ap2", 1, 7, true, "connected"⟩] } :=
  (C1_amended_join_ignores_closed_status stClosed "s1" "r1" "p2" 7
    sessionFive part2
    { mkFixtureRoom "r1" 2 RoomStatus.closed 1 with closedAt := some 5 }
    (by rfl) (by rfl) (by rfl) (by rfl) (by decide) (by decide) (by rfl)).2

/-- C3 counterexample: closing the already-closed room of `stClosed`
(closed at 5) returns success, publishes both closure events a second time,
and re-stamps `closedAt` to 9 — neither an `InvalidState` rejection nor a
no-op. -/
theorem C3_counterexample_reclose_republishes :
    stClosed.rooms.map (fun r => r.status) = [RoomStatus.closed] ∧
    (closeRoom stClosed "s1" "r1" "p1" 9).result = .ok () ∧
    (closeRoom stClosed "s1" "r1" "p1" 9).events =
      [⟨"breakout:r1", "room_closed"⟩, ⟨"session:s1", "breakout_room_closed"⟩] ∧
    (closeRoom stClosed "s1" "r1" "p1" 9).store.rooms.map (fun r => r.closedAt) =
      [some 9] ∧
    stClosed.rooms.map (fun r => r.closedAt) = [some 5] := by
  exact ⟨rfl, rfl, rfl, rfl, rfl⟩

/-- C3 (amended): `closeRoom` performs no check of the room's current
status. Closing an already-closed room succeeds again: it republishes both
`room_closed` and `breakout_room_closed` and overwrites `closedAt`; only the
status value itself is unchanged (it is stamped `closed` again). -/
theorem C3_amended_close_republishes
    (st : Store) (sessionId roomId userId : String) (now : Nat)
    (session : Session) (room : BreakoutRoom)
    (hs : st.sessions.find? (fun s => s.id = sessionId) = some session)
    (hhost : session.hostId = userId)
    (hr : st.rooms.find? (fun r => r.id = roomId) = some room)
    (hclosed : room.status = RoomStatus.closed) :
    room.status = RoomStatus.closed ∧
    (closeRoom st sessionId roomId userId now).result = .ok () ∧
    (closeRoom st sessionId roomId userId now).events =
      [⟨"breakout:" ++ roomId, "room_closed"⟩,
       ⟨"session:" ++ sessionId, "breakout_room_closed"⟩] ∧
    (closeRoom st sessionId roomId userId now).store.rooms =
      saveRoom st.rooms { room with status := RoomStatus.closed, closedAt := some now } := by
  rw [closeRoom_ok hs hhost hr]
  exact ⟨hclosed, rfl, rfl, rfl⟩

/-- C3 witness: the amended statement instantiated on `stClosed`. -/
theorem C3_amended_witness :
    (closeRoom stClosed "s1" "r1" "p1" 9).result = .ok () ∧
    (closeRoom stClosed "s1" "r1" "p1" 9).events =
      [⟨"breakout:" ++ "r1", "room_closed"⟩,
       ⟨"session:" ++ "s1", "breakout_room_closed"⟩] :=
  ⟨(C3_amended_close_republishes stClosed "s1" "r1" "p1" 9 sessionFive
      { mkFixtureRoom "r1" 2 RoomStatus.closed 1 with closedAt := some 5 }
      (by rfl) (by rfl) (by rfl) (by rfl)).2.1,
   (C3_amended_close_republishes stClosed "s1" "r1" "p1" 9 sessionFive
      { mkFixtureRoom "r1" 2 RoomStatus.closed 1 with closedAt := some 5 }
      (by rfl) (by rfl) (by rfl) (by rfl)).2.2.1⟩

/-- C2: capacity safety. (1) Every sequence of handler invocations —
creates, joins, leaves, closes and auto-assigns in any order — preserves
`|participants| ≤ maxParticipants` for every room; (2) a `joinRoom` against
a roster already at or above capacity fails with the `Breakout room is
full` 400 response and leaves the store untouched; (3) an auto-assign
iteration whose round-robin target is at capacity commits nothing. -/
theorem C2_capacity_invariant :
    (∀ (st : Store) (ops : List Op),
      WithinCapacity st → WithinCapacity (applyOps st ops)) ∧
    (∀ (st : Store) (sessionId roomId userId : String) (now : Nat)
      (session : Session) (participant : Participant) (room : BreakoutRoom),
      st.sessions.find? (fun s => s.id = sessionId) = some session →
      session.participants.find? (fun p => p.id = userId) = some participant →
      st.rooms.find? (fun r => r.id = roomId) = some room →
      room.sessionId = sessionId →
      room.participants.length ≥ room.maxParticipants →
      joinRoom st sessionId roomId userId now =
        ⟨.error ⟨"Breakout room is full", 400⟩, st, []⟩) ∧
    (∀ (roomsArr : List BreakoutRoom) (p : Participant) (idx now : Nat)
      (target : BreakoutRoom),
      roomsArr.get? idx = some target →
      target.maxParticipants ≤ target.participants.length →
      autoAssignStep roomsArr p idx now = (roomsArr, [])) := by
  refine ⟨?_, ?_, ?_⟩
  · intro st ops h
    refine applyOps_allRooms ?_ ?_ ?_ ?_ ops st h
    · intro room uid al av now hP hlt
      simp only [List.length_append, List.length_singleton]
      omega
    · intro room uid hP
      exact le_trans (List.eraseP_sublist room.participants).length_le hP
    · intro room now hP
      exact hP
    · intro r hr
      simp [hr]
  · intro st sessionId roomId userId now session participant room hs hp hr hsid hfull
    exact joinRoom_full hs hp hr hsid hfull
  · intro roomsArr p idx now target hget hfull
    exact autoAssignStep_full hget hfull

/-- C2 witness: the three parts of the capacity theorem instantiated
concretely — an auto-assign filling `stRoundRobin` followed by a join
attempt keeps every roster within capacity; a join against the full
one-seat room fails with the 400 `full` response unchanged; an auto-assign
iteration targeting the full room is a no-op. -/
theorem C2_capacity_witness :
    WithinCapacity (applyOps stRoundRobin
      [Op.assign "s1" "p1" 9, Op.join "s1" "r1" "p5" 10]) ∧
    joinRoom stFull "s1" "r9" "p2" 7 =
      ⟨.error ⟨"Breakout room is full", 400⟩, stFull, []⟩ ∧
    autoAssignStep [fullRoom] part5 0 9 = ([fullRoom], []) :=
  ⟨C2_capacity_invariant.1 stRoundRobin [Op.assign "s1" "p1" 9, Op.join "s1" "r1" "p5" 10]
      (by unfold WithinCapacity AllRooms; decide),
   C2_capacity_invariant.2.1 stFull "s1" "r9" "p2" 7 sessionFive part2 fullRoom
      (by rfl) (by rfl) (by rfl) (by rfl) (by decide),
   C2_capacity_invariant.2.2 [fullRoom] part5 0 9 fullRoom (by rfl) (by decide)⟩

/-- C4: determinism and exact distribution of auto-assign. On the spec's
scenario (five unassigned participants, two empty two-seat active rooms)
the handler commits P1→R1, P2→R2, P3→R1, P4→R2 and leaves P5 unassigned
(only four user-scoped notifications go out); on a second scenario (1-seat
and 2-seat rooms, three participants) P3, whose round-robin target R1 is
full, is skipped outright rather than spilled into the non-full R2. Both
runs are fixed equalities of a pure function on a fixed snapshot, so the
result is deterministic. -/
theorem C4_auto_assign_round_robin :
    (autoAssignRooms stRoundRobin "s1" "p1" 9).result = .ok (5, 2) ∧
    (autoAssignRooms stRoundRobin "s1" "p1" 9).store.rooms.map
      (fun r => (r.id, r.participants.map (fun p => p.id))) =
      [("r1", ["p1", "p3"]), ("r2", ["p2", "p4"])] ∧
    (autoAssignRooms stRoundRobin "s1" "p1" 9).events =
      [⟨"user:p1", "auto_assigned_to_breakout"⟩,
       ⟨"user:p2", "auto_assigned_to_breakout"⟩,
       ⟨"user:p3", "auto_assigned_to_breakout"⟩,
       ⟨"user:p4", "auto_assigned_to_breakout"⟩] ∧
    (autoAssignRooms stSkip "s1" "p1" 9).store.rooms.map
      (fun r => (r.id, r.participants.map (fun p => p.id))) =
      [("r1", ["p1"]), ("r2", ["p2"])] := by
  exact ⟨rfl, rfl, rfl, rfl⟩

/-- C5 counterexample: with every other precondition met,
`createRoom(name="Team A", maxParticipants=0)` does not fail — it returns
success and persists a room with `maxParticipants = 0`; the handler never
validates the capacity argument. -/
theorem C5_counterexample_zero_capacity_accepted :
    (∃ room, (createRoom stActive "s1" "p1" "Team A" (some 0) false
        (.ok "tok") "abc123" "n16" 0).result = .ok room ∧
      room.maxParticipants = 0) ∧
    (createRoom stActive "s1" "p1" "Team A" (some 0) false
        (.ok "tok") "abc123" "n16" 0).store.rooms.map
      (fun r => (r.id, r.maxParticipants)) =
      [("r1", 2), ("breakout_s1_abc123", 0)] := by
  refine ⟨⟨⟨"breakout_s1_abc123", "s1", "Team A", "p1", "Ap1", 0,
    "breakout_breakout_s1_abc123", "tok", .active, 0, 3600000, none, [],
    false⟩, rfl, rfl⟩, rfl⟩

/-- C5 (amended): `createRoom` rejects a name whose trimmed length is
below 2 with the 400 `InvalidArgument` response and creates nothing, but it
performs no validation of `maxParticipants`: a request carrying capacity 0
succeeds and appends a room whose `maxParticipants` is 0. -/
theorem C5_amended_create_validation :
    (∀ (st : Store) (sessionId userId name : String)
      (maxParticipantsBody : Option Nat) (autoAssignFlag : Bool)
      (issuer : Except String String) (nano6 nano16 : String) (now : Nat)
      (session : Session) (participant : Participant),
      st.sessions.find? (fun s => s.id = sessionId) = some session →
      session.participants.find? (fun p => p.id = userId) = some participant →
      (participant.isHost = true ∨ participant.isModerator = true) →
      (trimmed name).length < 2 →
      createRoom st sessionId userId name maxParticipantsBody autoAssignFlag
          issuer nano6 nano16 now =
        ⟨.error ⟨"Room name must be at least 2 characters", 400⟩, st, []⟩) ∧
    (∀ (st : Store) (sessionId userId name : String) (autoAssignFlag : Bool)
      (issuer : Except String String) (nano6 nano16 : String) (now : Nat)
      (session : Session) (participant : Participant),
      st.sessions.find? (fun s => s.id = sessionId) = some session →
      session.participants.find? (fun p => p.id = userId) = some participant →
      (participant.isHost = true ∨ participant.isModerator = true) →
      2 ≤ (trimmed name).length →
      ∃ room,
        (createRoom st sessionId userId name (some 0) autoAssignFlag
          issuer nano6 nano16 now).result = .ok room ∧
        room.maxParticipants = 0 ∧
        (createRoom st sessionId userId name (some 0) autoAssignFlag
          issuer nano6 nano16 now).store.rooms = st.rooms ++ [room]) := by
  constructor
  · intro st sessionId userId name maxB auto issuer nano6 nano16 now
      session participant hs hp hpriv hshort
    exact createRoom_badName hs hp hpriv hshort
  · intro st sessionId userId name auto issuer nano6 nano16 now
      session participant hs hp hpriv hname
    obtain ⟨room, h1, h2, _, _, _, h6⟩ :=
      createRoom_ok (some 0) auto issuer nano6 nano16 now hs hp hpriv hname
    exact ⟨room, h1, by simpa using h2, h6⟩

/-- C5 witness: the amended statement instantiated concretely — the 1-char
name "a" is rejected unchanged, and capacity 0 is accepted. -/
theorem C5_amended_witness :
    createRoom stActive "s1" "p1" "a" none false (.ok "tok") "abc123" "n16" 0 =
      ⟨.error ⟨"Room name must be at least 2 characters", 400⟩, stActive, []⟩ ∧
    (∃ room,
      (createRoom stActive "s1" "p1" "Team A" (some 0) false
        (.ok "tok") "abc123" "n16" 0).result = .ok room ∧
      room.maxParticipants = 0 ∧
      (createRoom stActive "s1" "p1" "Team A" (some 0) false
        (.ok "tok") "abc123" "n16" 0).store.rooms = stActive.rooms ++ [room]) :=
  ⟨C5_amended_create_validation.1 stActive "s1" "p1" "a" none false
      (.ok "tok") "abc123" "n16" 0 sessionFive part1
      (by rfl) (by rfl) (.inl rfl) (by decide),
   C5_amended_create_validation.2 stActive "s1" "p1" "Team A" false
      (.ok "tok") "abc123" "n16" 0 sessionFive part1
      (by rfl) (by rfl) (.inl rfl) (by decide)⟩

/-- C6: when the credential issuer throws, `createRoom` still succeeds (the
failure is absorbed, never surfaced) and the stored token is the locally
generated placeholder carrying the distinguishable `temp_breakout_token_`
sentinel prefix. -/
theorem C6_issuer_failure_fallback
    (st : Store) (sessionId userId name : String)
    (maxParticipantsBody : Option Nat) (autoAssignFlag : Bool)
    (nano6 nano16 : String) (now : Nat)
    (session : Session) (participant : Participant)
    (hs : st.sessions.find? (fun s => s.id = sessionId) = some session)
    (hp : session.participants.find? (fun p => p.id = userId) = some participant)
    (hpriv : participant.isHost = true ∨ participant.isModerator = true)
    (hname : 2 ≤ (trimmed name).length)
    (errMsg : String) :
    ∃ room,
      (createRoom st sessionId userId name maxParticipantsBody autoAssignFlag
        (.error errMsg) nano6 nano16 now).result = .ok room ∧
      room.agoraToken = "temp_breakout_token_" ++ nano16 ∧
      (∃ rest, room.agoraToken = "temp_breakout_token_" ++ rest) := by
  obtain ⟨room, h1, _, _, _, h5, _⟩ :=
    createRoom_ok maxParticipantsBody autoAssignFlag (.error errMsg) nano6
      nano16 now hs hp hpriv hname
  exact ⟨room, h1, by simpa using h5, nano16, by simpa using h5⟩

/-- C6 witness: issuer simulated as throwing on a concrete store — creation
succeeds and the token is the tagged placeholder. -/
theorem C6_issuer_failure_witness :
    ∃ room,
      (createRoom stActive "s1" "p1" "Team A" none false
        (.error "boom") "abc123" "n16" 0).result = .ok room ∧
      room.agoraToken = "temp_breakout_token_" ++ "n16" ∧
      (∃ rest, room.agoraToken = "temp_breakout_token_" ++ rest) :=
  C6_issuer_failure_fallback stActive "s1" "p1" "Team A" none false
    "abc123" "n16" 0 sessionFive part1
    (by rfl) (by rfl) (.inl rfl) (by decide) "boom"

/-- C7: for an actor not yet in an under-capacity room, join–leave–join
succeeds at every step; the intermediate leave restores the entire store —
in particular the roster's membership — to exactly its state before the
first join, and the second join re-appends the actor's snapshot (with the
new timestamp `t2`) just as the first one did. -/
theorem C7_join_leave_join_round_trip
    (st : Store) (sessionId roomId userId : String) (t1 t2 : Nat)
    (session : Session) (participant : Participant) (room : BreakoutRoom)
    (hs : st.sessions.find? (fun s => s.id = sessionId) = some session)
    (hp : session.participants.find? (fun p => p.id = userId) = some participant)
    (hr : st.rooms.find? (fun r => r.id = roomId) = some room)
    (hsid : room.sessionId = sessionId)
    (hcap : room.participants.length < room.maxParticipants)
    (hmem : ∀ p ∈ room.participants, p.id ≠ userId) :
    (joinRoom st sessionId roomId userId t1).result = .ok () ∧
    (leaveRoom (joinRoom st sessionId roomId userId t1).store sessionId roomId userId).result = .ok () ∧
    (leaveRoom (joinRoom st sessionId roomId userId t1).store sessionId roomId userId).store = st ∧
    (joinRoom (leaveRoom (joinRoom st sessionId roomId userId t1).store sessionId roomId userId).store sessionId roomId userId t2).result = .ok () ∧
    (joinRoom (leaveRoom (joinRoom st sessionId roomId userId t1).store sessionId roomId userId).store sessionId roomId userId t2).store.rooms = saveRoom st.rooms { room with participants := room.participants ++ [⟨userId, participant.aliasName, participant.avatarIndex, t2, true, "connected"⟩] } := by
  have hroomid : room.id = roomId := by simpa using List.find?_some hr
  have hmem' : room.participants.find? (fun p => p.id = userId) = none :=
    List.find?_eq_none.mpr (by intro x hx; simpa using hmem x hx)
  have hj1 := joinRoom_ok t1 hs hp hr hsid hcap hmem
  have hj2 := joinRoom_ok t2 hs hp hr hsid hcap hmem
  have hfind1 : ((joinRoom st sessionId roomId userId t1).store.rooms.find?
      (fun r => r.id = roomId)) = some { room with participants := room.participants ++ [⟨userId, participant.aliasName, participant.avatarIndex, t1, true, "connected"⟩] } := by
    rw [hj1]
    exact find?_saveRoom hr hroomid
  have hfindp : ((room.participants ++ [(⟨userId, participant.aliasName, participant.avatarIndex, t1, true, "connected"⟩ : RoomParticipant)]).find? (fun p => p.id = userId)) = some ⟨userId, participant.aliasName, participant.avatarIndex, t1, true, "connected"⟩ := by
    rw [List.find?_append, hmem']
    simp
  have hl := leaveRoom_ok sessionId userId hfind1 (by simp [hfindp])
  have herase : (room.participants ++ [(⟨userId, participant.aliasName, participant.avatarIndex, t1, true, "connected"⟩ : RoomParticipant)]).eraseP (fun p => p.id = userId) = room.participants := by
    rw [List.eraseP_append_right _ (by intro b hb; simpa using hmem b hb)]
    simp [List.eraseP_cons]
  have hst2 : (leaveRoom (joinRoom st sessionId roomId userId t1).store sessionId roomId userId).store = st := by
    rw [hl, hj1]
    simp only [herase]
    show Store.mk st.sessions (saveRoom (saveRoom st.rooms { room with participants := room.participants ++ [⟨userId, participant.aliasName, participant.avatarIndex, t1, true, "connected"⟩] }) room) = st
    rw [saveRoom_saveRoom_cancel { room with participants := room.participants ++ [⟨userId, participant.aliasName, participant.avatarIndex, t1, true, "connected"⟩] } hr hroomid]
  refine ⟨by rw [hj1], by rw [hl], hst2, ?_, ?_⟩
  · rw [hst2, hj2]
  · rw [hst2, hj2]

/-- C7 witness: the round trip run concretely on the empty active room. -/
theorem C7_round_trip_witness :
    (joinRoom stActive "s1" "r1" "p2" 7).result = .ok () ∧
    (leaveRoom (joinRoom stActive "s1" "r1" "p2" 7).store "s1" "r1" "p2").store = stActive ∧
    (joinRoom (leaveRoom (joinRoom stActive "s1" "r1" "p2" 7).store "s1" "r1" "p2").store "s1" "r1" "p2" 8).result = .ok () :=
  have h := C7_join_leave_join_round_trip stActive "s1" "r1" "p2" 7 8
    sessionFive part2 (mkFixtureRoom "r1" 2 RoomStatus.active 1)
    (by rfl) (by rfl) (by rfl) (by rfl) (by decide) (by decide)
  ⟨h.1, h.2.2.1, h.2.2.2.1⟩

/-- Membership is invariant under the stable insertion used to model
Mongo's `.sort({ createdAt: 1 })`. -/
theorem mem_insertByCreatedAt {x r : BreakoutRoom} {l : List BreakoutRoom} :
    x ∈ insertByCreatedAt r l ↔ x = r ∨ x ∈ l := by
  induction l with
  | nil => simp [insertByCreatedAt]
  | cons a as ih =>
    simp only [insertByCreatedAt]
    split
    · simp only [List.mem_cons, ih]
      tauto
    · simp

/-- Membership is invariant under sorting by `createdAt`. -/
theorem mem_sortByCreatedAt {x : BreakoutRoom} {l : List BreakoutRoom} :
    x ∈ sortByCreatedAt l ↔ x ∈ l := by
  induction l with
  | nil => simp [sortByCreatedAt]
  | cons a as ih => simp [sortByCreatedAt, mem_insertByCreatedAt, ih]

/-- C8: every summary the listing returns corresponds to a stored room that
is necessarily `active` (the query filters on `status: 'active'`), and its
`canJoin` flag is `true` exactly when the room is active, below capacity
and does not contain the requesting actor — the conjunction of the spec. -/
theorem C8_canJoin_characterization
    (st : Store) (sessionId userId : String) (summaries : List RoomSummary)
    (h : listBreakoutRooms st sessionId userId = .ok summaries) :
    ∀ summ ∈ summaries, ∃ room,
      room ∈ st.rooms ∧
      summ.id = room.id ∧
      summ.maxParticipants = room.maxParticipants ∧
      summ.currentParticipants = room.participants.length ∧
      room.status = RoomStatus.active ∧
      (summ.canJoin = true ↔
        (room.status = RoomStatus.active ∧
         room.participants.length < room.maxParticipants ∧
         ∀ p ∈ room.participants, p.id ≠ userId)) := by
  unfold listBreakoutRooms at h
  split at h
  · exact absurd h (by simp)
  · split at h
    · exact absurd h (by simp)
    · injection h with h
      subst h
      intro summ hsumm
      obtain ⟨room, hroomMem, rfl⟩ := List.mem_map.mp hsumm
      rw [mem_sortByCreatedAt, List.mem_filter] at hroomMem
      obtain ⟨hmem, hpred⟩ := hroomMem
      have hpred' := of_decide_eq_true hpred
      refine ⟨room, hmem, rfl, rfl, rfl, hpred'.2, ?_⟩
      have hnone : ((room.participants.find? (fun p => p.id = userId)).isSome = false) ↔
          (∀ p ∈ room.participants, p.id ≠ userId) := by
        rw [show ((room.participants.find? (fun p => p.id = userId)).isSome = false) ↔
            (room.participants.find? (fun p => p.id = userId) = none) from by
          cases hx : room.participants.find? (fun p => p.id = userId) <;> simp]
        rw [List.find?_eq_none]
        simp
      simp only [hpred'.2, true_and, Bool.and_eq_true, decide_eq_true_eq,
        Bool.not_eq_true']
      rw [hnone]

/-- C8 witness: the characterization instantiated on the single-room store
for actor `p2`, whose summary carries `canJoin = true`. -/
theorem C8_canJoin_witness :
    ∃ room,
      room ∈ stActive.rooms ∧
      (⟨"r1", "Room r1", "p1", "Ap1", 2, 0, [], 1, true⟩ : RoomSummary).id = room.id ∧
      (⟨"r1", "Room r1", "p1", "Ap1", 2, 0, [], 1, true⟩ : RoomSummary).maxParticipants = room.maxParticipants ∧
      (⟨"r1", "Room r1", "p1", "Ap1", 2, 0, [], 1, true⟩ : RoomSummary).currentParticipants = room.participants.length ∧
      room.status = RoomStatus.active ∧
      ((⟨"r1", "Room r1", "p1", "Ap1", 2, 0, [], 1, true⟩ : RoomSummary).canJoin = true ↔
        (room.status = RoomStatus.active ∧
         room.participants.length < room.maxParticipants ∧
         ∀ p ∈ room.participants, p.id ≠ "p2")) :=
  C8_canJoin_characterization stActive "s1" "p2"
    [⟨"r1", "Room r1", "p1", "Ap1", 2, 0, [], 1, true⟩] (by rfl)
    ⟨"r1", "Room r1", "p1", "Ap1", 2, 0, [], 1, true⟩ (by simp)

/-- C10: (1) every sequence of handler invocations preserves the invariant
that each roster snapshot has `isMuted = true` and
`connectionStatus = 'connected'` (no handler ever mutates an entry in
place); (2) a successful `joinRoom` appends exactly the snapshot
`{userId, alias, avatar, joinedAt := now, isMuted := true,
connectionStatus := 'connected'}` — a fresh timestamp and the fixed flags,
regardless of the participant's state in the main-session roster; (3) a
committed auto-assign iteration appends a snapshot of the same shape. -/
theorem C10_roster_snapshots_muted_connected :
    (∀ (st : Store) (ops : List Op),
      MutedConnected st → MutedConnected (applyOps st ops)) ∧
    (∀ (st : Store) (sessionId roomId userId : String) (now : Nat)
      (session : Session) (participant : Participant) (room : BreakoutRoom),
      st.sessions.find? (fun s => s.id = sessionId) = some session →
      session.participants.find? (fun p => p.id = userId) = some participant →
      st.rooms.find? (fun r => r.id = roomId) = some room →
      room.sessionId = sessionId →
      room.participants.length < room.maxParticipants →
      (∀ p ∈ room.participants, p.id ≠ userId) →
      (joinRoom st sessionId roomId userId now).store.rooms =
        saveRoom st.rooms { room with participants := room.participants ++ [⟨userId, participant.aliasName, participant.avatarIndex, now, true, "connected"⟩] }) ∧
    (∀ (roomsArr : List BreakoutRoom) (p : Participant) (idx now : Nat)
      (target : BreakoutRoom),
      roomsArr.get? idx = some target →
      target.participants.length < target.maxParticipants →
      autoAssignStep roomsArr p idx now =
        (roomsArr.set idx { target with participants := target.participants ++ [⟨p.id, p.aliasName, p.avatarIndex, now, true, "connected"⟩] },
         [⟨"user:" ++ p.id, "auto_assigned_to_breakout"⟩])) := by
  refine ⟨?_, ?_, ?_⟩
  · intro st ops h
    refine applyOps_allRooms ?_ ?_ ?_ ?_ ops st h
    · intro room uid al av now hP hlt p hp
      rcases List.mem_append.mp hp with hm | hm
      · exact hP p hm
      · simp only [List.mem_singleton] at hm
        subst hm
        exact ⟨rfl, rfl⟩
    · intro room uid hP p hp
      exact hP p ((List.eraseP_sublist _).subset hp)
    · intro room now hP
      exact hP
    · intro r hr p hp
      rw [hr] at hp
      simp at hp
  · intro st sessionId roomId userId now session participant room hs hp hr hsid hcap hmem
    rw [joinRoom_ok now hs hp hr hsid hcap hmem]
  · intro roomsArr p idx now target hget hcap
    exact autoAssignStep_commit hget hcap

/-- C10 witness: the invariant evaluated before and after a concrete
auto-assign-then-join trace. -/
theorem C10_muted_connected_witness :
    MutedConnected (applyOps stRoundRobin
      [Op.assign "s1" "p1" 9, Op.join "s1" "r1" "p5" 10]) :=
  C10_roster_snapshots_muted_connected.1 stRoundRobin
    [Op.assign "s1" "p1" 9, Op.join "s1" "r1" "p5" 10]
    (by unfold MutedConnected AllRooms; decide)

end Veilos
